import Mathlib

set_option maxHeartbeats 1000000
set_option maxRecDepth 4000

/-!
Verification development for the feishu-docx repository.

The Python sources are shallowly embedded as Lean definitions:

* `feishu_docx/core/converters/md_to_blocks.py` (`MarkdownToBlocks`) — the
  Markdown-AST → block-descriptor converter.  The third-party mistune parser
  is external to the repository, so the converter is modelled as a function on
  mistune token trees (`MToken`); Python strings are modelled as `List Char`
  (Python strings are sequences of code points).  The `_sanitize_latex`
  regex rewriting is kept as an abstract parameter (`ConvEnv.sanitize`);
  every theorem about the converter is proved for an arbitrary sanitizer.
* `feishu_docx/core/parsers/document.py` (`DocumentParser`) — the read-path
  block → Markdown renderer.
* `feishu_docx/core/writer.py` (`FeishuWriter`) — the write orchestrator.
  Vendor SDK calls are modelled as oracle functions in an environment record.
-/

namespace FeishuDocx

/-- Python strings are sequences of Unicode code points; we model them as
lists of characters. -/
abbrev Str := List Char

/-! ### Python string helpers used by the converter -/

/-- Python `s.replace(pat, rep)` for a nonempty pattern: leftmost,
non-overlapping replacement of every occurrence.  The recursion is
structural on a length fuel — every step consumes at least one input
character, so `s.length` steps always suffice — which keeps the function
reducible by the kernel. -/
def replaceCharsFuel (pat rep : Str) : Nat → Str → Str
  | 0, s => s
  | _ + 1, [] => []
  | fuel + 1, c :: rest =>
    if pat ≠ [] ∧ pat.isPrefixOf (c :: rest) then
      rep ++ replaceCharsFuel pat rep fuel (rest.drop (pat.length - 1))
    else
      c :: replaceCharsFuel pat rep fuel rest

/-- Python `s.replace(pat, rep)` (nonempty pattern; the converter only uses
the patterns `"\r\n"`, `"\n"`, `"\r"`). -/
def replaceChars (pat rep : Str) (s : Str) : Str :=
  replaceCharsFuel pat rep s.length s

/-- Newline normalization from `_extract_text_elements` (line 475):
`content.replace("\r\n", " ").replace("\n", " ").replace("\r", " ")`. -/
def normalizeChars (s : Str) : Str :=
  replaceChars ['\r'] [' '] (replaceChars ['\n'] [' '] (replaceChars ['\r', '\n'] [' '] s))

/-- The chunking loop of `_extract_text_elements` (lines 483-489):
`for i in range(0, len(text_content), limit): text_content[i:i+limit]`.
For `limit ≥ 1` this yields the successive slices of length `limit`
(the last one possibly shorter). -/
def chunkChars (limit : Nat) : Str → List Str
  | [] => []
  | c :: rest => (c :: rest).take limit :: chunkChars limit (rest.drop (limit - 1))
termination_by s => s.length
decreasing_by simp only [List.length_drop, List.length_cons]; omega

/-- Python `str.strip()` (strip whitespace from both ends), used by
`_is_remote_url`. -/
def pyStrip (s : Str) : Str :=
  ((s.dropWhile Char.isWhitespace).reverse.dropWhile Char.isWhitespace).reverse

/-- Python `str.lower()`, character-wise. -/
def pyLower (s : Str) : Str := s.map Char.toLower

/-! ### Converter data model (`md_to_blocks.py`) -/

/-- The style bag accumulated by `_extract_text_elements`: a Python dict that
only ever holds the truthy values `bold/italic/strikethrough/inline_code =
True` and `link = dict with url`.  The dict (with falsy entries filtered out)
corresponds bijectively to this structure with `false`/`none` defaults. -/
structure MdStyle where
  bold : Bool := false
  italic : Bool := false
  strikethrough : Bool := false
  inline_code : Bool := false
  link : Option Str := none
deriving DecidableEq

/-- A mistune AST token, as consumed by `MarkdownToBlocks`.  Leaf text is the
string the converter reads from the token (`token.get("text") or
token.get("raw", "")`); math tokens carry the content string the converter
extracts (`attrs.content or raw.strip("$")`).  `otherTok` stands for every
token type the converter ignores (softbreak, blank_line, ...). -/
inductive MToken : Type
  | text (raw : Str)
  | codespan (raw : Str)
  | strong (children : List MToken)
  | emphasis (children : List MToken)
  | strikethrough (children : List MToken)
  | link (url : Str) (children : List MToken)
  | inlineMath (content : Str)
  | image (url : Str)
  | paragraph (children : List MToken)
  | heading (level : Int) (children : List MToken)
  | listTok (ordered : Bool) (children : List MToken)
  | listItem (children : List MToken)
  | blockText (children : List MToken)
  | blockCode (raw : Str) (info : Str)
  | blockQuote (children : List MToken)
  | thematicBreak
  | blockMath (content : Str)
  | table (children : List MToken)
  | tableHead (children : List MToken)
  | tableBody (children : List MToken)
  | tableRow (children : List MToken)
  | tableCell (children : List MToken)
  | otherTok

/-- A text element of a block payload.  `textRun` carries the
`text_element_style` dict; `codeRun` is the style-less
`{"text_run": {"content": ...}}` element built for code blocks;
`equation` is the equation element. -/
inductive MdElement
  | textRun (content : Str) (style : MdStyle)
  | codeRun (content : Str)
  | equation (content : Str)
deriving DecidableEq

/-- Content of a `textRun` element, `[]` otherwise. -/
def MdElement.runContent : MdElement → Str
  | .textRun c _ => c
  | .codeRun c => c
  | .equation _ => []

/-- A block descriptor produced by the converter.  Each constructor mirrors
one dict shape built in `md_to_blocks.py`; `textB true` is the centered text
block built for equations (`"style": {"align": 2}`); `tableB` keeps each
cell's `children` list (the cell payload itself is the constant
`{"block_type": 32, "table_cell": {}}`). -/
inductive MdBlock : Type
  | textB (align2 : Bool) (elements : List MdElement)
  | headingB (level : Nat) (elements : List MdElement)
  | bulletB (elements : List MdElement)
  | orderedB (elements : List MdElement)
  | codeB (language : Nat) (raw : Str)
  | quoteB (elements : List MdElement)
  | dividerB
  | imageB
  | tableB (rowSize colSize : Nat) (cells : List (List MdBlock))

/-- Block-type codes, from the `BLOCK_TYPE_*` constants of
`MarkdownToBlocks` (lines 39-57). -/
def BLOCK_TYPE_TEXT : Nat := 2
def BLOCK_TYPE_HEADING1 : Nat := 3
def BLOCK_TYPE_HEADING9 : Nat := 11
def BLOCK_TYPE_BULLET : Nat := 12
def BLOCK_TYPE_ORDERED : Nat := 13
def BLOCK_TYPE_CODE : Nat := 14
def BLOCK_TYPE_QUOTE : Nat := 15
def BLOCK_TYPE_TODO : Nat := 17
def BLOCK_TYPE_DIVIDER : Nat := 22
def BLOCK_TYPE_IMAGE : Nat := 27
def BLOCK_TYPE_TABLE : Nat := 31
def BLOCK_TYPE_TABLE_CELL : Nat := 32

/-- The `block_type` value of the dict a constructor models. -/
def MdBlock.btype : MdBlock → Nat
  | .textB _ _ => BLOCK_TYPE_TEXT
  | .headingB level _ => BLOCK_TYPE_HEADING1 + level - 1
  | .bulletB _ => BLOCK_TYPE_BULLET
  | .orderedB _ => BLOCK_TYPE_ORDERED
  | .codeB _ _ => BLOCK_TYPE_CODE
  | .quoteB _ => BLOCK_TYPE_QUOTE
  | .dividerB => BLOCK_TYPE_DIVIDER
  | .imageB => BLOCK_TYPE_IMAGE
  | .tableB _ _ _ => BLOCK_TYPE_TABLE

/-- Converter environment: the `_sanitize_latex` LaTeX rewriting, kept
abstract (all converter theorems are proved for an arbitrary sanitizer). -/
structure ConvEnv where
  sanitize : Str → Str

/-- The `LANGUAGE_MAP.get(lang, 1)` lookup of `_make_code_block`
(`1` is PlainText). -/
def languageMap (lang : Str) : Nat :=
  if lang = "python".data then 49
  else if lang = "javascript".data then 22
  else if lang = "typescript".data then 75
  else if lang = "java".data then 21
  else if lang = "go".data then 13
  else if lang = "rust".data then 56
  else if lang = "c".data then 5
  else if lang = "cpp".data then 7
  else if lang = "csharp".data then 8
  else if lang = "ruby".data then 55
  else if lang = "php".data then 46
  else if lang = "swift".data then 68
  else if lang = "kotlin".data then 25
  else if lang = "sql".data then 64
  else if lang = "shell".data then 61
  else if lang = "bash".data then 3
  else if lang = "json".data then 23
  else if lang = "yaml".data then 81
  else if lang = "xml".data then 79
  else if lang = "html".data then 17
  else if lang = "css".data then 9
  else if lang = "markdown".data then 34
  else 1

/-- `MarkdownToBlocks._is_remote_url` (lines 155-158):
`re.match(r"^(?:https?:)?//|^data:", url.strip(), re.IGNORECASE)`.
The regex matches exactly the strings whose stripped, lowercased form starts
with `//`, `http://`, `https://` or `data:`. -/
def isRemoteUrl (url : Str) : Bool :=
  let s := pyLower (pyStrip url)
  "//".data.isPrefixOf s || "http://".data.isPrefixOf s ||
    "https://".data.isPrefixOf s || "data:".data.isPrefixOf s

/-- `MarkdownToBlocks._make_image` (lines 230-255).  Returns the produced
block (if any) and the updated `self.image_paths` accumulator. -/
def makeImage (url : Str) (image_paths : List Str) : Option MdBlock × List Str :=
  if url = [] then (none, image_paths)
  else if isRemoteUrl url then
    (some (MdBlock.textB false
      [MdElement.textRun ("![Image](".data ++ url ++ ")".data) {}]), image_paths)
  else
    (some MdBlock.imageB, image_paths ++ [url])

/-- Leaf handling shared by the `text` and `codespan` branches of
`_extract_text_elements` (lines 473-496): newline normalization, then
splitting into chunks of at most 2000 characters, every chunk carrying
`current_style`. -/
def extractLeaf (raw : Str) (current_style : MdStyle) : List MdElement :=
  let text_content := normalizeChars raw
  if text_content.length > 2000 then
    (chunkChars 2000 text_content).map (fun chunk => MdElement.textRun chunk current_style)
  else
    [MdElement.textRun text_content current_style]

/-- `MarkdownToBlocks._extract_text_elements` (lines 459-533): recursive
extraction of text elements with an accumulating style bag. -/
def extractTextElements (env : ConvEnv) (style : MdStyle) : List MToken → List MdElement
  | [] => []
  | MToken.text raw :: rest =>
      extractLeaf raw style ++ extractTextElements env style rest
  | MToken.codespan raw :: rest =>
      extractLeaf raw { style with inline_code := true } ++ extractTextElements env style rest
  | MToken.strong cs :: rest =>
      extractTextElements env { style with bold := true } cs
        ++ extractTextElements env style rest
  | MToken.emphasis cs :: rest =>
      extractTextElements env { style with italic := true } cs
        ++ extractTextElements env style rest
  | MToken.strikethrough cs :: rest =>
      extractTextElements env { style with strikethrough := true } cs
        ++ extractTextElements env style rest
  | MToken.link url cs :: rest =>
      (match cs with
       | [] => [MdElement.textRun url { style with link := some url }]
       | c :: cs' => extractTextElements env { style with link := some url } (c :: cs'))
        ++ extractTextElements env style rest
  | MToken.inlineMath content :: rest =>
      (let m := env.sanitize content
       if m = [] then [] else [MdElement.equation m])
        ++ extractTextElements env style rest
  | _ :: rest => extractTextElements env style rest
termination_by ts => sizeOf ts
decreasing_by all_goals (simp_wf <;> omega)

/-- The `children` list of an arbitrary token (`token.get("children", [])`). -/
def MToken.childrenOf : MToken → List MToken
  | .strong cs | .emphasis cs | .strikethrough cs | .link _ cs
  | .paragraph cs | .heading _ cs | .listTok _ cs | .listItem cs
  | .blockText cs | .blockQuote cs | .table cs | .tableHead cs
  | .tableBody cs | .tableRow cs | .tableCell cs => cs
  | _ => []

/-- `MarkdownToBlocks._make_heading` (lines 187-199). -/
def makeHeading (env : ConvEnv) (level : Int) (children : List MToken) : MdBlock :=
  let levelN : Nat := (min (max level 1) 6).toNat
  MdBlock.headingB levelN (extractTextElements env {} children)

/-- The loop body of `MarkdownToBlocks._make_paragraph` (lines 201-228):
buffered inline elements are flushed into a text block whenever an image is
met; the image becomes its own block; a trailing flush closes the paragraph. -/
def makeParagraphAux (env : ConvEnv) (current_elements : List MdElement)
    (blocks : List MdBlock) (paths : List Str) :
    List MToken → List MdBlock × List Str
  | [] =>
    if current_elements.isEmpty then (blocks, paths)
    else (blocks ++ [MdBlock.textB false current_elements], paths)
  | MToken.image url :: rest =>
    let blocks :=
      if current_elements.isEmpty then blocks
      else blocks ++ [MdBlock.textB false current_elements]
    let (img?, paths) := makeImage url paths
    let blocks := match img? with | some b => blocks ++ [b] | none => blocks
    makeParagraphAux env [] blocks paths rest
  | child :: rest =>
    makeParagraphAux env (current_elements ++ extractTextElements env {} [child])
      blocks paths rest

/-- `MarkdownToBlocks._make_paragraph`. -/
def makeParagraph (env : ConvEnv) (children : List MToken) (paths : List Str) :
    List MdBlock × List Str :=
  makeParagraphAux env [] [] paths children

/-- The inner scan of one paragraph/block_text child of a list item
(`_make_list`, lines 268-276): images are flushed into `image_blocks`,
everything else extends `elements`. -/
def listItemScan (env : ConvEnv) (els : List MdElement) (imgs : List MdBlock)
    (paths : List Str) : List MToken → List MdElement × List MdBlock × List Str
  | [] => (els, imgs, paths)
  | MToken.image url :: rest =>
    let (img?, paths) := makeImage url paths
    let imgs := match img? with | some b => imgs ++ [b] | none => imgs
    listItemScan env els imgs paths rest
  | sub :: rest =>
    listItemScan env (els ++ extractTextElements env {} [sub]) imgs paths rest

/-- Iteration over the children of one list item, keeping only
`paragraph`/`block_text` children (`_make_list`, line 269). -/
def listItemChildScan (env : ConvEnv) (acc : List MdElement × List MdBlock × List Str) :
    List MToken → List MdElement × List MdBlock × List Str
  | [] => acc
  | MToken.paragraph subs :: rest =>
    listItemChildScan env (listItemScan env acc.1 acc.2.1 acc.2.2 subs) rest
  | MToken.blockText subs :: rest =>
    listItemChildScan env (listItemScan env acc.1 acc.2.1 acc.2.2 subs) rest
  | _ :: rest => listItemChildScan env acc rest

/-- `MarkdownToBlocks._make_list` (lines 257-286): one block per list item
(dropped if its element list is empty), with inline images appended as
sibling image blocks after the item's block. -/
def makeListItems (env : ConvEnv) (ordered : Bool) (paths : List Str) :
    List MToken → List MdBlock × List Str
  | [] => ([], paths)
  | MToken.listItem ics :: rest =>
    let (els, imgs, paths) := listItemChildScan env ([], [], paths) ics
    let bs :=
      (if els.isEmpty then []
       else [if ordered then MdBlock.orderedB els else MdBlock.bulletB els]) ++ imgs
    let (bs', paths') := makeListItems env ordered paths rest
    (bs ++ bs', paths')
  | _ :: rest => makeListItems env ordered paths rest

/-- `MarkdownToBlocks._make_code_block` (lines 288-300). -/
def makeCodeBlock (raw info : Str) : MdBlock :=
  MdBlock.codeB (languageMap (pyLower info)) raw

/-- `MarkdownToBlocks._make_quote` (lines 302-314): the flattened inline
content of the quote's paragraph children. -/
def makeQuote (env : ConvEnv) (children : List MToken) : MdBlock :=
  MdBlock.quoteB (children.foldl
    (fun acc c =>
      match c with
      | MToken.paragraph subs => acc ++ extractTextElements env {} subs
      | _ => acc) [])

/-- `MarkdownToBlocks._make_equation` (lines 347-361): sanitized LaTeX as a
centered text block holding a single equation element; `none` when the
sanitized content is empty. -/
def makeEquation (env : ConvEnv) (content : Str) : Option MdBlock :=
  let c := env.sanitize content
  if c = [] then none else some (MdBlock.textB true [MdElement.equation c])

/-- The `flush_inline` helper of `table_cell_children` (lines 374-383). -/
def tcFlush (env : ConvEnv) (blocks : List MdBlock) (inline_buffer : List MToken) :
    List MdBlock :=
  if inline_buffer.isEmpty then blocks
  else blocks ++ [MdBlock.textB false (extractTextElements env {} inline_buffer)]

/-- The loop of `table_cell_children` (lines 385-401): split a cell's inline
children at images, defaulting to a single empty text block when the cell
produced no blocks at all. -/
def tableCellAux (env : ConvEnv) (blocks : List MdBlock) (inline_buffer : List MToken)
    (paths : List Str) : List MToken → List MdBlock × List Str
  | [] =>
    let blocks := tcFlush env blocks inline_buffer
    (if blocks.isEmpty then [MdBlock.textB false []] else blocks, paths)
  | MToken.image url :: rest =>
    let blocks := tcFlush env blocks inline_buffer
    let (img?, paths) := makeImage url paths
    let blocks := match img? with | some b => blocks ++ [b] | none => blocks
    tableCellAux env blocks [] paths rest
  | child :: rest =>
    tableCellAux env blocks (inline_buffer ++ [child]) paths rest

/-- `table_cell_children` (lines 365-401). -/
def tableCellChildren (env : ConvEnv) (cell_children : List MToken) (paths : List Str) :
    List MdBlock × List Str :=
  tableCellAux env [] [] paths cell_children

/-- Test for the `table_cell` token type (`normalize_rows`, line 418). -/
def isTableCellTok : MToken → Bool
  | .tableCell _ => true
  | _ => false

/-- The `table_head` handling of `normalize_rows` (lines 413-426). -/
def headRows (head_children : List MToken) : List (List MToken) :=
  if head_children.isEmpty then []
  else if head_children.all isTableCellTok then [head_children]
  else head_children.foldl
    (fun acc row =>
      match row with
      | MToken.tableRow cs => acc ++ [cs]
      | MToken.tableCell cs => acc ++ [[MToken.tableCell cs]]
      | _ => acc) []

/-- The `table_body` handling of `normalize_rows` (lines 428-433). -/
def bodyRows (body_children : List MToken) : List (List MToken) :=
  body_children.foldl
    (fun acc row =>
      match row with
      | MToken.tableRow cs => acc ++ [cs]
      | MToken.tableCell cs => acc ++ [[MToken.tableCell cs]]
      | _ => acc) []

/-- `normalize_rows` (lines 403-435). -/
def normalizeRows (children : List MToken) : List (List MToken) :=
  children.foldl
    (fun rows part =>
      match part with
      | MToken.tableHead hc => rows ++ headRows hc
      | MToken.tableBody bc => rows ++ bodyRows bc
      | _ => rows) []

/-- The cell-building double loop of `_make_table` (lines 441-451):
row-major over `row_count × col_count`, short rows padded with missing
(`None`) cells.  Produces the `children` lists of the table-cell
descriptors, threading the image-path accumulator. -/
def makeTableCellsRow (env : ConvEnv) (row : List MToken) (col_count : Nat)
    (paths : List Str) : List (List MdBlock) × List Str :=
  (List.range col_count).foldl
    (fun (acc : List (List MdBlock) × List Str) c =>
      let cell_children := match row.get? c with
        | some tok => tok.childrenOf
        | none => []
      let (cb, paths') := tableCellChildren env cell_children acc.2
      (acc.1 ++ [cb], paths'))
    ([], paths)

/-- `MarkdownToBlocks._make_table` (lines 363-457). -/
def makeTable (env : ConvEnv) (children : List MToken) (paths : List Str) :
    MdBlock × List Str :=
  let rows := normalizeRows children
  let row_count := rows.length
  let col_count := (rows.map List.length).foldl max 0
  let (cells, paths') := rows.foldl
    (fun (acc : List (List MdBlock) × List Str) row =>
      let (cb, p') := makeTableCellsRow env row col_count acc.2
      (acc.1 ++ cb, p'))
    ([], paths)
  (MdBlock.tableB row_count col_count cells, paths')

/-- `MarkdownToBlocks._convert_token` (lines 160-185), with the image-path
accumulator threaded.  A `None` return is the empty list; `_make_paragraph`
and `_make_list` return lists. -/
def convertToken (env : ConvEnv) (tok : MToken) (paths : List Str) :
    List MdBlock × List Str :=
  match tok with
  | MToken.heading level cs => ([makeHeading env level cs], paths)
  | MToken.paragraph cs => makeParagraph env cs paths
  | MToken.listTok ordered cs => makeListItems env ordered paths cs
  | MToken.blockCode raw info => ([makeCodeBlock raw info], paths)
  | MToken.blockQuote cs => ([makeQuote env cs], paths)
  | MToken.thematicBreak => ([MdBlock.dividerB], paths)
  | MToken.blockMath content =>
    ((makeEquation env content).toList, paths)
  | MToken.inlineMath content =>
    ((makeEquation env content).toList, paths)
  | MToken.table cs =>
    let (b, paths') := makeTable env cs paths
    ([b], paths')
  | MToken.image url =>
    let (b?, paths') := makeImage url paths
    (b?.toList, paths')
  | _ => ([], paths)

/-- The element list inspected by the empty-block filter of `convert`
(lines 118-137): `some` for the block types in the filter list (text,
heading 1-9, bullet, ordered, quote; todo blocks are never constructed by
this converter), `none` for the rest. -/
def blockElementsForFilter : MdBlock → Option (List MdElement)
  | MdBlock.textB _ els => some els
  | MdBlock.headingB _ els => some els
  | MdBlock.bulletB els => some els
  | MdBlock.orderedB els => some els
  | MdBlock.quoteB els => some els
  | _ => none

/-- One block survives the filter of `convert` iff it is not an
empty-element block of a filtered type. -/
def keepBlock (b : MdBlock) : Bool :=
  match blockElementsForFilter b with
  | some els => !els.isEmpty
  | none => true

/-- The token loop of `MarkdownToBlocks.convert` (lines 108-138). -/
def convertTokens (env : ConvEnv) : List MToken → List Str → List MdBlock × List Str
  | [], paths => ([], paths)
  | t :: rest, paths =>
    let (bs, paths) := convertToken env t paths
    let (bs', paths') := convertTokens env rest paths
    (bs.filter keepBlock ++ bs', paths')

/-- `MarkdownToBlocks.convert` (lines 93-140): the `image_paths` accumulator
is reset to `[]` at the start of every call (line 103). -/
def convert (env : ConvEnv) (tokens : List MToken) : List MdBlock × List Str :=
  convertTokens env tokens []

/-- `convert` together with the instance state it leaves behind: the
`self.image_paths` field holds the returned path list after the call. -/
def convertWithState (env : ConvEnv) (_state_image_paths : List Str)
    (tokens : List MToken) : (List MdBlock × List Str) × List Str :=
  let out := convertTokens env tokens []
  (out, out.2)

/-! ### Read-path renderer data model (`parsers/document.py`) -/

/-- `text_element_style` of a vendor text run (spec data model §3). -/
structure TextElementStyle where
  bold : Bool := false
  italic : Bool := false
  strikethrough : Bool := false
  inline_code : Bool := false
  underline : Bool := false
  link : Option String := none
deriving DecidableEq

/-- A vendor text element: exactly one of text_run, mention_user,
mention_doc, equation, link_preview. -/
inductive TextElement
  | textRun (content : String) (style : Option TextElementStyle)
  | mentionUser (user_id : String)
  | mentionDoc (token : String)
  | equation (content : String)
  | linkPreview (url : String)
deriving DecidableEq

/-- A text-bearing payload (`text`, `headingN`, `bullet`, `quote`,
`callout` ... all expose `.elements`). -/
structure TextPayloadR where
  elements : List TextElement
deriving DecidableEq

/-- The `style` object of an ordered-list payload (`.style.sequence`). -/
structure OrderedStyleR where
  sequence : Option String := none
deriving DecidableEq

/-- Payload of an ordered-list block. -/
structure OrderedPayloadR where
  elements : List TextElement
  style : Option OrderedStyleR := none
deriving DecidableEq

/-- Payload of a todo block (`.style.done`). -/
structure TodoPayloadR where
  elements : List TextElement
  done : Bool := false
deriving DecidableEq

/-- Payload of a code block (`.style.language`, a vendor language code;
`none` models an absent style/language). -/
structure CodePayloadR where
  elements : List TextElement
  language : Option Nat := none
deriving DecidableEq

/-- Read-side block-type codes.  Codes 1-17, 22, 27, 31, 32 match the
`BLOCK_TYPE_*` constants in `md_to_blocks.py`.  Modelled from the spec:
`feishu_docx/schema/models.py` is not under src; the exact numeric codes of
the sdk-rendered leaf types (board, sheet, bitable, reference, file) and of
page/callout/quote-container are irrelevant to the claims — they only need
to be distinct from the codes the claims use (2-17, 22). -/
def BT_PAGE : Nat := 1
def BT_CALLOUT : Nat := 19
def BT_QUOTE_CONTAINER : Nat := 34
def BT_BOARD : Nat := 43
def BT_SHEET : Nat := 30
def BT_BITABLE : Nat := 18
def BT_REFERENCE : Nat := 33
def BT_FILE : Nat := 23

/-- A vendor block as read by `DocumentParser._render_block_content`: the
block-type tag plus the type-specific payload attributes the renderer
accesses (absent attributes are `none`, as on the vendor model classes). -/
structure RBlock where
  block_type : Nat
  text : Option TextPayloadR := none
  heading1 : Option TextPayloadR := none
  heading2 : Option TextPayloadR := none
  heading3 : Option TextPayloadR := none
  heading4 : Option TextPayloadR := none
  heading5 : Option TextPayloadR := none
  heading6 : Option TextPayloadR := none
  heading7 : Option TextPayloadR := none
  heading8 : Option TextPayloadR := none
  heading9 : Option TextPayloadR := none
  bullet : Option TextPayloadR := none
  ordered : Option OrderedPayloadR := none
  todo : Option TodoPayloadR := none
  code : Option CodePayloadR := none
  quote : Option TextPayloadR := none
  callout : Option TextPayloadR := none
deriving DecidableEq

/-- `getattr(block, f"heading{level}", None)` (line 239). -/
def RBlock.headingPayload (b : RBlock) : Nat → Option TextPayloadR
  | 1 => b.heading1
  | 2 => b.heading2
  | 3 => b.heading3
  | 4 => b.heading4
  | 5 => b.heading5
  | 6 => b.heading6
  | 7 => b.heading7
  | 8 => b.heading8
  | 9 => b.heading9
  | _ => none

/-- Renderer environment: the external collaborators of `DocumentParser`.
`getUserName` is `sdk.get_user_name`; `unquote` is `urllib.parse.unquote`
(standard library, external); `codeStyleMap` is the `CODE_STYLE_MAP` lookup
(`schema/code_style.py`, not under src — modelled as an abstract code→name
table); `leafRender` stands for the sdk-backed leaf branches (image, board,
sheet, bitable, reference, file), whose network effects are out of scope. -/
structure REnv where
  getUserName : String → String
  unquote : String → String
  codeStyleMap : Nat → Option String
  leafRender : RBlock → String

/-- `DocumentParser._render_text_payload` (lines 397-432), single element.
Style wrappers are applied in source order: bold, italic, strikethrough,
inline code, underline, link — each rewrapping the previous result.  Note
the bold wrapper appends a trailing space (`f"**{text}** "`). -/
def renderTextElement (env : REnv) : TextElement → String
  | TextElement.textRun content style =>
    (match style with
     | none => content
     | some st =>
       let t := content
       let t := if st.bold then (if t ≠ "" then "**" ++ t ++ "** " else "") else t
       let t := if st.italic then "*" ++ t ++ "*" else t
       let t := if st.strikethrough then "~~" ++ t ++ "~~" else t
       let t := if st.inline_code then "`" ++ t ++ "`" else t
       let t := if st.underline then "<u>" ++ t ++ "</u>" else t
       let t := match st.link with
         | some url => "[" ++ t ++ "](" ++ env.unquote url ++ ")"
         | none => t
       t)
  | TextElement.mentionUser uid => "@" ++ env.getUserName uid
  | TextElement.mentionDoc tok => "[" ++ tok ++ "]"
  | TextElement.equation c => "$" ++ c ++ "$"
  | TextElement.linkPreview url => "[" ++ url ++ "]"

/-- `_render_text_payload` on a payload's element list. -/
def renderTextElements (env : REnv) (elements : List TextElement) : String :=
  (elements.map (renderTextElement env)).foldl (· ++ ·) ""

/-- `_render_text_payload` on an optional payload (`if not payload: ""`,
line 399). -/
def renderTextPayload (env : REnv) : Option (List TextElement) → String
  | none => ""
  | some elements => renderTextElements env elements

/-- Digit accumulation for `pyInt?`. -/
def digitsValAux : List Char → Nat → Option Nat
  | [], acc => some acc
  | c :: rest, acc =>
    if c.isDigit then digitsValAux rest (acc * 10 + (c.toNat - '0'.toNat))
    else none

/-- Value of a nonempty all-digit string. -/
def digitsVal : List Char → Option Nat
  | [] => none
  | c :: rest => digitsValAux (c :: rest) 0

/-- Python `int(s)`: optional surrounding whitespace, an optional sign,
then decimal digits; `none` models the `ValueError` that `int` raises on a
non-numeric string. -/
def pyInt? (s : String) : Option Int :=
  match pyStrip s.data with
  | '-' :: ds => (digitsVal ds).map (fun n => -(n : Int))
  | '+' :: ds => (digitsVal ds).map (fun n => (n : Int))
  | ds => (digitsVal ds).map (fun n => (n : Int))

/-- The heading-marker string `'#' * level` (line 240). -/
def hashMarks (level : Nat) : String := String.mk (List.replicate level '#')

/-- `DocumentParser._render_block_content` (lines 228-395), with the
`self.last_order_seq` counter threaded as state (initialized to `1` in
`__init__`, line 94).  The result is `none` when Python would raise
(`int(seq)` on a non-numeric explicit sequence). -/
def renderBlockContent (env : REnv) (last_order_seq : Int) (b : RBlock) :
    Option (String × Int) :=
  let bt := b.block_type
  if bt = BLOCK_TYPE_TEXT then
    some (renderTextPayload env (b.text.map TextPayloadR.elements), last_order_seq)
  else if BLOCK_TYPE_HEADING1 ≤ bt ∧ bt ≤ BLOCK_TYPE_HEADING9 then
    let level := bt - 2
    some (hashMarks level ++ " "
      ++ renderTextPayload env ((b.headingPayload level).map TextPayloadR.elements),
      last_order_seq)
  else if bt = BLOCK_TYPE_BULLET then
    some ("- " ++ renderTextPayload env (b.bullet.map TextPayloadR.elements),
      last_order_seq)
  else if bt = BLOCK_TYPE_ORDERED then
    let payloadText := renderTextPayload env (b.ordered.map OrderedPayloadR.elements)
    match b.ordered with
    | some op =>
      match op.style with
      | some sty =>
        let seq := match sty.sequence with
          | some s => if s = "" then "1" else s
          | none => "1"
        if seq = "auto" then
          let n := last_order_seq + 1
          some (toString n ++ ". " ++ payloadText, n)
        else
          match pyInt? seq with
          | some k => some (seq ++ ". " ++ payloadText, k)
          | none => none
      | none => some ("1. " ++ payloadText, last_order_seq)
    | none => some ("1. " ++ payloadText, last_order_seq)
  else if bt = BLOCK_TYPE_TODO then
    let status := match b.todo with
      | some tp => if tp.done then "[x]" else "[ ]"
      | none => "[ ]"
    some ("- " ++ status ++ " "
      ++ renderTextPayload env (b.todo.map TodoPayloadR.elements), last_order_seq)
  else if bt = BLOCK_TYPE_CODE then
    let lang := match b.code with
      | some cp =>
        (match cp.language with
         | some l => if l ≠ 0 then (env.codeStyleMap l).getD "text" else "text"
         | none => "text")
      | none => "text"
    some ("```" ++ lang ++ "\n"
      ++ renderTextPayload env (b.code.map CodePayloadR.elements) ++ "\n```",
      last_order_seq)
  else if bt = BLOCK_TYPE_QUOTE then
    some ("> " ++ renderTextPayload env (b.quote.map TextPayloadR.elements),
      last_order_seq)
  else if bt = BT_CALLOUT then
    some ("> 💡 " ++ renderTextPayload env (b.callout.map TextPayloadR.elements),
      last_order_seq)
  else if bt = BLOCK_TYPE_DIVIDER then
    some ("---", last_order_seq)
  else if bt = BLOCK_TYPE_IMAGE ∨ bt = BT_BOARD ∨ bt = BT_SHEET ∨ bt = BT_BITABLE
      ∨ bt = BT_REFERENCE ∨ bt = BT_FILE then
    some (env.leafRender b, last_order_seq)
  else
    some ("", last_order_seq)

/-- Rendering of a sequence of blocks, threading the running
`last_order_seq` counter exactly as the parser instance does across
`_render_block_content` calls. -/
def renderBlockSeq (env : REnv) (last_order_seq : Int) :
    List RBlock → Option (List String × Int)
  | [] => some ([], last_order_seq)
  | b :: rest => do
    let (s, st') ← renderBlockContent env last_order_seq b
    let (ss, st'') ← renderBlockSeq env st' rest
    pure (s :: ss, st'')

/-- An ordered-list block with a given sequence marker and payload. -/
def orderedBlock (seq : Option String) (elements : List TextElement) : RBlock :=
  { block_type := BLOCK_TYPE_ORDERED,
    ordered := some { elements := elements, style := some { sequence := seq } } }

/-- A heading block of level `L` (block type `L + 2`) holding `payload` in
its `headingL` attribute. -/
def mkHeadingBlock (L : Nat) (payload : TextPayloadR) : RBlock :=
  match L with
  | 1 => { block_type := 3, heading1 := some payload }
  | 2 => { block_type := 4, heading2 := some payload }
  | 3 => { block_type := 5, heading3 := some payload }
  | 4 => { block_type := 6, heading4 := some payload }
  | 5 => { block_type := 7, heading5 := some payload }
  | 6 => { block_type := 8, heading6 := some payload }
  | 7 => { block_type := 9, heading7 := some payload }
  | 8 => { block_type := 10, heading8 := some payload }
  | 9 => { block_type := 11, heading9 := some payload }
  | _ => { block_type := 2 }

/-! ### Table grid reconstruction (`DocumentParser._render_table`, lines 434-489)

The grid construction of `_render_table` is embedded as a fold over the
row-major position list.  The `visited` boolean matrix is modelled as the
list of marked (always in-bounds) positions; the `grid_data` matrix is
modelled as the association list of recorded `(position, (content,
row_span, col_span))` entries in assignment order — each loop iteration
touches a distinct position, so matrix assignment and association-list
append coincide.  `cell_texts` stands for the rendered contents of the
table's cell blocks in order (`"<br>".join` of each cell's recursively
rendered children, lines 477-480); the recursive rendering itself is not
part of the grid reconstruction.  Vendor spans are nonnegative in any valid
merge info; `range(n)` over a span is modelled by `List.range`. -/

/-- One entry of the `merge_info` array. -/
structure MergeInfo where
  row_span : Nat
  col_span : Nat
deriving DecidableEq

/-- State of the grid-construction loop. -/
structure GridState where
  visited : List (Nat × Nat)
  entries : List ((Nat × Nat) × String × Nat × Nat)
  cursor : Nat
deriving DecidableEq

/-- The marking loop (lines 468-472): all in-bounds positions of the
spanned rectangle rooted at `(r, c)`. -/
def markRect (r c r_span c_span row_count col_count : Nat) : List (Nat × Nat) :=
  (List.range r_span).flatMap (fun rs =>
    (List.range c_span).filterMap (fun cs =>
      if r + rs < row_count ∧ c + cs < col_count then some (r + rs, c + cs) else none))

/-- Merge-span lookup (lines 460-466): `merge_info[r*cols+c]`, defaulting to
a 1×1 span when the flat index is out of range. -/
def spanAt (merge_infos : List MergeInfo) (col_count : Nat) (p : Nat × Nat) :
    Nat × Nat :=
  match merge_infos[p.1 * col_count + p.2]? with
  | some m => (m.row_span, m.col_span)
  | none => (1, 1)

/-- One iteration of the double loop of `_render_table` (lines 455-483). -/
def tableGridStep (row_count col_count : Nat) (merge_infos : List MergeInfo)
    (cell_texts : List String) (st : GridState) (p : Nat × Nat) : GridState :=
  if p ∈ st.visited then st
  else
    let span := spanAt merge_infos col_count p
    let visited := st.visited ++ markRect p.1 p.2 span.1 span.2 row_count col_count
    match cell_texts[st.cursor]? with
    | some t =>
      { visited := visited, entries := st.entries ++ [(p, t, span.1, span.2)],
        cursor := st.cursor + 1 }
    | none =>
      { visited := visited, entries := st.entries ++ [(p, "", span.1, span.2)],
        cursor := st.cursor }

/-- The row-major position list of the double loop. -/
def positionsRM (row_count col_count : Nat) : List (Nat × Nat) :=
  (List.range row_count).flatMap (fun r => (List.range col_count).map (fun c => (r, c)))

/-- The grid construction of `_render_table`. -/
def buildTableGrid (row_count col_count : Nat) (merge_infos : List MergeInfo)
    (cell_texts : List String) : GridState :=
  (positionsRM row_count col_count).foldl
    (tableGridStep row_count col_count merge_infos cell_texts)
    { visited := [], entries := [], cursor := 0 }

/-- The number of merged-region origins of a grid: the number of recorded
entries, which depends only on the dimensions and the merge info (not on
the cell contents). -/
def numOrigins (row_count col_count : Nat) (merge_infos : List MergeInfo) : Nat :=
  (buildTableGrid row_count col_count merge_infos []).entries.length

/-! ### Write orchestrator (`writer.py`) -/

/-- A table-cell entry of a table descriptor's `children` list as seen by
`_prepare_table_blocks`: a dict with an optional `children` list of content
blocks (of an abstract type `α`), or a non-dict entry. -/
inductive WCell (α : Type)
  | cellDict (children : Option (List α))
  | nonDict

/-- A table-type descriptor as seen by `_prepare_table_blocks`:
`row_size`/`column_size` are `some` exactly when the key is present and an
`int` (`isinstance` checks, line 128), `children` is the optional cell
list. -/
structure WTable (α : Type) where
  row_size : Option Int := none
  column_size : Option Int := none
  children : Option (List (WCell α)) := none

/-- A top-level descriptor in the list passed to `_prepare_table_blocks`:
a table dict, any other dict (skipped by the `block_type` check), or a
non-dict entry (skipped by the `isinstance` check).  Skipped entries stay
in the list unchanged. -/
inductive WBlock (α β : Type)
  | table (t : WTable α)
  | otherDict (b : β)
  | nonDict

/-- Python `l[:e]` for an `int` bound `e` (a negative bound counts from the
end). -/
def pySliceTo (e : Int) (l : List α) : List α :=
  if 0 ≤ e then l.take e.toNat else l.take ((l.length : Int) + e).toNat

/-- The content list extracted from one cell entry (lines 117-122):
`cell.get("children") or []` for a dict cell, `[]` for a non-dict entry. -/
def cellContentOf : WCell α → List α
  | WCell.cellDict ch => ch.getD []
  | WCell.nonDict => []

/-- The per-table body of `FeishuWriter._prepare_table_blocks`
(lines 115-149): extract every cell's content list (popping the cells'
`children`), compute `expected_cells = row_size * column_size` when both
are ints, pad the fill plan with empty content lists or truncate it to
`expected_cells`, and pop the table's own `children` key (line 144) —
the padded/truncated local `cell_blocks` list is discarded by that pop.
Returns the table as it goes into the creation call and the
`cell_contents` fill plan. -/
def prepareTable (t : WTable α) : WTable α × List (List α) :=
  let cell_blocks := t.children.getD []
  let cell_contents := cell_blocks.map cellContentOf
  let expected_cells : Option Int :=
    match t.row_size, t.column_size with
    | some r, some c => some (r * c)
    | _, _ => none
  let n : Int := cell_blocks.length
  let plan :=
    match expected_cells with
    | some e =>
      if e > n then cell_contents ++ List.replicate (e - n).toNat []
      else if e < n then pySliceTo e cell_contents
      else cell_contents
    | none => cell_contents
  ({ row_size := t.row_size, column_size := t.column_size, children := none }, plan)

/-- `FeishuWriter._prepare_table_blocks` (lines 105-151): the block list
with every table descriptor's `children` popped, plus the per-table fill
plans (the `cell_contents` of each `table_plans` entry) in table order. -/
def prepareTableBlocks (blocks : List (WBlock α β)) :
    List (WBlock α β) × List (List (List α)) :=
  blocks.foldl
    (fun acc b =>
      match b with
      | WBlock.table t =>
        let (t', plan) := prepareTable t
        (acc.1 ++ [WBlock.table t'], acc.2 ++ [plan])
      | _ => (acc.1 ++ [b], acc.2))
    ([], [])

/-- Environment of the image-refill phase of `write_content`
(lines 350-405): the filesystem and sdk collaborators, modelled as
deterministic oracles.  `resolve` is `base_dir / img_url`; `pathExists` is
`Path.exists`; `upload` is `sdk.upload_image` returning a file token or
raising; `replaceImg` is `sdk.replace_image`; `deleteBlk` is
`sdk.delete_block`.  An `Except.error` models a raised exception. -/
structure RefillEnv where
  resolve : String → String → String
  pathExists : String → Bool
  upload : String → String → Except String String
  replaceImg : String → String → Except String Unit
  deleteBlk : String → Except String Unit

/-- One sdk call made by the refill loop, recorded for the trace. -/
inductive SdkCall
  | upload (path : String)
  | replaceImage (block_id : String)
  | deleteBlock (block_id : String)
deriving DecidableEq

/-- A cleanup delete: the call is always made, and its own failure is
caught and only logged (lines 395-399 and 402-405). -/
def deleteAttempt (env : RefillEnv) (block_id : String) : List SdkCall :=
  match env.deleteBlk block_id with
  | Except.ok _ => [SdkCall.deleteBlock block_id]
  | Except.error _ => [SdkCall.deleteBlock block_id]

/-- The body of the refill loop for one `(image block, path)` pair
(lines 370-405), returning the trace of sdk calls it makes.  Every
exception of the upload/replace attempt is caught by the `except` handler
(lines 393-399), so the body always returns. -/
def refillItem (env : RefillEnv) (base_dir : String) (oid : Option String)
    (img_url : String) : List SdkCall :=
  match oid with
  | none => []
  | some block_id =>
    let img_path := env.resolve base_dir img_url
    if env.pathExists img_path then
      match env.upload img_path block_id with
      | Except.ok file_token =>
        match env.replaceImg block_id file_token with
        | Except.ok _ => [SdkCall.upload img_path, SdkCall.replaceImage block_id]
        | Except.error _ =>
          [SdkCall.upload img_path, SdkCall.replaceImage block_id]
            ++ deleteAttempt env block_id
      | Except.error _ => [SdkCall.upload img_path] ++ deleteAttempt env block_id
    else
      deleteAttempt env block_id

/-- The image-refill phase of `write_content` (lines 350-408).  The loop
runs over `range(count)` with `count = min(len(image_blocks),
len(image_paths))` (the mismatch branch warns and takes the min; the equal
branch takes the common length), i.e. exactly over the positional zip of
the two lists.  The phase returns `created_blocks` untouched — that is
what `write_content` returns (line 408) — together with the per-pair sdk
call traces. -/
def imageRefillPhase (env : RefillEnv) (base_dir : String)
    (image_blocks : List (Option String)) (image_paths : List String)
    (created_blocks : List γ) : List γ × List (List SdkCall) :=
  if image_paths.isEmpty then (created_blocks, [])
  else
    (created_blocks,
      (image_blocks.zip image_paths).map
        (fun pr => refillItem env base_dir pr.1 pr.2))

/-! ### Concrete environments for witnesses and counterexamples -/

/-- A converter environment whose sanitizer is the identity (concrete
instantiations only; all general theorems hold for every sanitizer). -/
def envId : ConvEnv := { sanitize := id }

/-- A renderer environment with identity `unquote` and trivial
collaborators, for concrete evaluations. -/
def renvId : REnv :=
  { getUserName := fun _ => "", unquote := id, codeStyleMap := fun _ => none,
    leafRender := fun _ => "" }

/-! ### C2 — text-run style wrapper order -/

/-- Wrapper applied by the bold branch (line 410): note the trailing space
in `f"**{text}** "`, and the collapse to `""` on empty text. -/
def boldWrap (flag : Bool) (t : String) : String :=
  if flag then (if t ≠ "" then "**" ++ t ++ "** " else "") else t

/-- Wrapper applied by the italic branch (line 412). -/
def italicWrap (flag : Bool) (t : String) : String :=
  if flag then "*" ++ t ++ "*" else t

/-- Wrapper applied by the strikethrough branch (line 414). -/
def strikeWrap (flag : Bool) (t : String) : String :=
  if flag then "~~" ++ t ++ "~~" else t

/-- Wrapper applied by the inline-code branch (line 416). -/
def inlineCodeWrap (flag : Bool) (t : String) : String :=
  if flag then "`" ++ t ++ "`" else t

/-- Wrapper applied by the underline branch (line 418). -/
def underlineWrap (flag : Bool) (t : String) : String :=
  if flag then "<u>" ++ t ++ "</u>" else t

/-- Wrapper applied by the link branch (line 420). -/
def linkWrap (url : Option String) (unquote : String → String) (t : String) : String :=
  match url with
  | some u => "[" ++ t ++ "](" ++ unquote u ++ ")"
  | none => t

/-- C2 (counterexample): a run with content "X" styled bold with a link url
renders as `[**X** ](url)` — the bold wrapper appends a trailing space —
and not as `[**X**](url)` as the claim states. -/
theorem C2_counterexample :
    renderTextElement renvId
        (TextElement.textRun "X" (some { bold := true, link := some "url" }))
      = "[**X** ](url)"
    ∧ renderTextElement renvId
        (TextElement.textRun "X" (some { bold := true, link := some "url" }))
      ≠ "[**X**](url)" := by
  exact ⟨rfl, by decide⟩

/-- C2 (amended): for every text-run content and style-flag combination the
renderer nests the wrappers in the fixed order bold, italic, strikethrough,
inline code, underline, link, each wrapping the previous result; the bold
wrapper emits a trailing space after the closing `**`, so bold+link "X"
renders as `[**X** ](url)`, a linked bold span (not `**[X](url)**`). -/
theorem C2_style_wrapper_order (env : REnv) (content : String)
    (st : TextElementStyle) :
    renderTextElement env (TextElement.textRun content (some st))
      = linkWrap st.link env.unquote
          (underlineWrap st.underline
            (inlineCodeWrap st.inline_code
              (strikeWrap st.strikethrough
                (italicWrap st.italic
                  (boldWrap st.bold content)))))
    ∧ renderTextElement env
        (TextElement.textRun "X" (some { bold := true, link := some "url" }))
      = "[**X** ](" ++ env.unquote "url" ++ ")" := by
  exact ⟨rfl, rfl⟩

/-! ### C9 — heading marker count on the read path -/

/-- C9 (counterexample): a level-7 heading block (block type 9) renders
with seven `#` markers, not the six the claim's `min(L, 6)` clamp
predicts. -/
theorem C9_counterexample :
    renderBlockContent renvId 1
        (mkHeadingBlock 7 { elements := [TextElement.textRun "T" none] })
      = some ("####### T", 1)
    ∧ ("####### T" : String) ≠ "###### T" := by
  exact ⟨rfl, by decide⟩

/-- C9 (amended): for every heading level L in 1..9 the read-path renderer
emits exactly L `#` markers — there is no clamp at 6 on the read path —
while the heading text is preserved for all levels. -/
theorem C9_heading_markers (env : REnv) (seq : Int) (payload : TextPayloadR)
    (L : Nat) (h1 : 1 ≤ L) (h2 : L ≤ 9) :
    renderBlockContent env seq (mkHeadingBlock L payload)
      = some (hashMarks L ++ " " ++ renderTextElements env payload.elements, seq) := by
  interval_cases L <;> rfl

/-- C9 (witness): the amended heading theorem applied at level 7. -/
theorem C9_heading_markers_witness :
    1 ≤ 7 ∧ 7 ≤ 9
    ∧ renderBlockContent renvId 1
        (mkHeadingBlock 7 { elements := [TextElement.textRun "T" none] })
      = some (hashMarks 7 ++ " "
          ++ renderTextElements renvId [TextElement.textRun "T" none], 1) :=
  ⟨by decide, by decide,
    C9_heading_markers renvId 1 { elements := [TextElement.textRun "T" none] } 7
      (by decide) (by decide)⟩

/-! ### C10 — convert is deterministic across calls on one instance -/

/-- C10: `convert` resets the `image_paths` accumulator at the start of
every call, so its result does not depend on the instance state left by
earlier conversions: two invocations with the same (parsed) markdown give
equal `(blocks, image_paths)` results, in particular when the second call
runs on the state the first call left behind. -/
theorem C10_convert_deterministic (env : ConvEnv) (tokens : List MToken)
    (s1 s2 : List Str) :
    (convertWithState env s1 tokens).1 = (convertWithState env s2 tokens).1
    ∧ (convertWithState env (convertWithState env s1 tokens).2 tokens).1
        = (convertWithState env s1 tokens).1
    ∧ (convertWithState env s1 tokens).1 = convert env tokens := by
  exact ⟨rfl, rfl, rfl⟩

/-! ### C5 — image reference handling in the converter -/

/-- Mistune tokens for the markdown `![alt](./pic.png)`: a paragraph holding
a single inline image token (mistune is external to the repository; the alt
text lives in the image token's children and is never read by
`_make_image`). -/
def tokensLocalImage : List MToken :=
  [MToken.paragraph [MToken.image "./pic.png".data]]

/-- Mistune tokens for the markdown `![alt](https://host/pic.png)`. -/
def tokensRemoteImage : List MToken :=
  [MToken.paragraph [MToken.image "https://host/pic.png".data]]

/-- Image-dispatch property of the converter (claim C5): the two concrete
end-to-end scenarios, plus the general dispatch of `_make_image` on a
nonempty URL. -/
def C5Prop (env : ConvEnv) (url : Str) (paths : List Str) : Prop :=
  (convert env tokensLocalImage = ([MdBlock.imageB], ["./pic.png".data]))
  ∧ (convert env tokensRemoteImage
      = ([MdBlock.textB false
          [MdElement.textRun "![Image](https://host/pic.png)".data {}]], []))
  ∧ (isRemoteUrl url = true →
      makeImage url paths
        = (some (MdBlock.textB false
            [MdElement.textRun ("![Image](".data ++ url ++ ")".data) {}]), paths))
  ∧ (isRemoteUrl url = false →
      makeImage url paths = (some MdBlock.imageB, paths ++ [url]))

/-- C5: `![alt](./pic.png)` converts to exactly one image-path entry
`./pic.png` and one empty-payload image block; `![alt](https://host/pic.png)`
converts to zero image-path entries and a text block holding the literal
string `![Image](https://host/pic.png)`; in general a remote/data URL gives
the literal text block with no path collected, and every other nonempty URL
is appended to the image-path list with one empty image placeholder block. -/
theorem C5_image_dispatch (env : ConvEnv) (url : Str) (paths : List Str)
    (h : url ≠ []) : C5Prop env url paths := by
  refine ⟨rfl, rfl, fun hr => ?_, fun hr => ?_⟩
  · simp [makeImage, h, hr]
  · simp [makeImage, h, hr]

/-- C5 (witness): the dispatch theorem at a concrete local URL. -/
theorem C5_image_dispatch_witness :
    ("x.png".data ≠ ([] : Str)) ∧ C5Prop envId "x.png".data [] :=
  ⟨by decide, C5_image_dispatch envId "x.png".data [] (by decide)⟩

/-! ### C8 — ordered-list numbering on the read path -/

/-- Ordered-numbering property (claim C8): an explicit numeric sequence `s`
renders with `s` and resets the counter to `int(s)`; an `auto` marker
renders the last number plus one and advances the counter; the
1/auto/auto scenario numbers 1, 2, 3 starting from the initial counter
value 1. -/
def C8Prop (env : REnv) (s : String) (n last : Int)
    (els pa pb pc : List TextElement) : Prop :=
  (renderBlockContent env last (orderedBlock (some s) els)
    = some (s ++ ". " ++ renderTextElements env els, n))
  ∧ (renderBlockContent env last (orderedBlock (some "auto") els)
      = some (toString (last + 1) ++ ". " ++ renderTextElements env els, last + 1))
  ∧ (renderBlockSeq env 1
        [orderedBlock (some "1") pa, orderedBlock (some "auto") pb,
          orderedBlock (some "auto") pc]
      = some (["1. " ++ renderTextElements env pa,
          "2. " ++ renderTextElements env pb,
          "3. " ++ renderTextElements env pc], 3))

/-- C8: ordered-list numbering maintains a running counter: an explicit
numeric sequence renders itself and resets the counter, an `auto` marker
renders last used number plus one, and the sequence markers
`"1", "auto", "auto"` render as 1., 2., 3. -/
theorem C8_ordered_numbering (env : REnv) (s : String) (n last : Int)
    (els pa pb pc : List TextElement) (h1 : pyInt? s = some n)
    (h2 : s ≠ "auto") (h3 : s ≠ "") : C8Prop env s n last els pa pb pc := by
  refine ⟨?_, rfl, rfl⟩
  simp only [renderBlockContent, orderedBlock, BLOCK_TYPE_TEXT,
    BLOCK_TYPE_HEADING1, BLOCK_TYPE_HEADING9, BLOCK_TYPE_BULLET,
    BLOCK_TYPE_ORDERED, h3, if_false, h2, h1]
  norm_num [renderTextPayload]

/-- C8 (witness): the numbering theorem at the concrete sequence "5". -/
theorem C8_ordered_numbering_witness :
    pyInt? "5" = some 5 ∧ ("5" : String) ≠ "auto" ∧ ("5" : String) ≠ ""
    ∧ C8Prop renvId "5" 5 1 [] [] [] [] :=
  ⟨by decide, by decide, by decide,
    C8_ordered_numbering renvId "5" 5 1 [] [] [] [] (by decide) (by decide)
      (by decide)⟩

/-! ### List helper lemmas -/

/-- A successful index read agrees with `getD`. -/
theorem getElem?_eq_some_getD {α : Type _} (d : α) (l : List α) (i : Nat)
    (h : i < l.length) : l[i]? = some (l.getD i d) := by
  rw [List.getD_eq_getElem?_getD, List.getElem?_eq_getElem h]
  rfl

/-- Index reads inside a `replicate` block. -/
theorem getElem?_replicate_of_lt {α : Type _} (a : α) (m i : Nat) (h : i < m) :
    (List.replicate m a)[i]? = some a := by
  rw [List.getElem?_eq_getElem (by simpa using h)]
  simp

/-! ### C6 — table preparation in the write orchestrator -/

/-- A concrete 1×2 table descriptor whose single converter cell holds one
content block (content blocks abstracted as naturals). -/
def ttblC6 : WTable Nat :=
  { row_size := some 1, column_size := some 2,
    children := some [WCell.cellDict (some [5])] }

/-- C6 (counterexample): `_prepare_table_blocks` pops the table descriptor's
`children` key entirely (line 144) before the creation call — the prepared
descriptor carries no cell array at all, not the correctly-sized array of
empty table-cell descriptors the claim states — while the fill plan is
indeed padded to `row_size * column_size`. -/
theorem C6_counterexample :
    prepareTable ttblC6
      = ({ row_size := some 1, column_size := some 2, children := none }, [[5], []])
    ∧ (prepareTable ttblC6).1.children
        ≠ some [WCell.cellDict none, WCell.cellDict none] := by
  refine ⟨rfl, ?_⟩
  intro hcontra
  simp [prepareTable, ttblC6] at hcontra

/-- Table-preparation property (claim C6, amended): for a table descriptor
whose `row_size` and `column_size` are the ints `r` and `c`, the prepared
descriptor has its `children` key removed (not replaced), and the
out-of-band fill plan has exactly `r * c` entries: the first entries are
the extracted per-cell content lists, the padding entries are empty. -/
def C6Prop (α : Type) (t : WTable α) (r c : Int) : Prop :=
  ((prepareTable t).1
      = { row_size := t.row_size, column_size := t.column_size, children := none })
  ∧ ((prepareTable t).2.length = (r * c).toNat)
  ∧ (∀ i, i < (t.children.getD []).length → i < (r * c).toNat →
      ((prepareTable t).2)[i]?
        = some (cellContentOf ((t.children.getD []).getD i WCell.nonDict)))
  ∧ (∀ i, (t.children.getD []).length ≤ i → i < (r * c).toNat →
      ((prepareTable t).2)[i]? = some [])

/-- C6 (amended): the table-preparation step extracts the per-cell content
lists into the fill plan, pads or truncates the plan to
`row_size * column_size` whenever both sizes are (nonnegative) integers,
and removes the descriptor's `children` before the creation call. -/
theorem C6_prepare_table (α : Type) (t : WTable α) (r c : Int)
    (hr : t.row_size = some r) (hc : t.column_size = some c)
    (h0 : 0 ≤ r * c) : C6Prop α t r c := by
  obtain ⟨rs, cs, ch⟩ := t
  simp only at hr hc
  subst hr hc
  set cells : List (WCell α) := ch.getD [] with hcells
  have hprep : prepareTable (⟨some r, some c, ch⟩ : WTable α)
      = (⟨some r, some c, none⟩,
          let contents := cells.map cellContentOf
          let n : Int := cells.length
          if r * c > n then contents ++ List.replicate (r * c - n).toNat []
          else if r * c < n then pySliceTo (r * c) contents
          else contents) := rfl
  refine ⟨by rw [hprep], ?_, ?_, ?_⟩
  · rw [hprep]
    simp only []
    split
    · simp only [List.length_append, List.length_map, List.length_replicate]
      omega
    · split
      · simp only [pySliceTo, if_pos h0, List.length_take, List.length_map]
        omega
      · simp only [List.length_map]
        omega
  · intro i hi1 hi2
    have hi1c : i < cells.length := hi1
    rw [hprep]
    simp only []
    have hmap : (cells.map cellContentOf)[i]?
        = some (cellContentOf (cells.getD i WCell.nonDict)) := by
      rw [List.getElem?_map, getElem?_eq_some_getD WCell.nonDict cells i hi1c]
      rfl
    split
    · rw [List.getElem?_append_left (by simpa using hi1c)]
      exact hmap
    · split
      · next h1 h2 =>
        simp only [pySliceTo, if_pos h0]
        rw [List.getElem?_take_of_lt (by omega)]
        exact hmap
      · exact hmap
  · intro i hi1 hi2
    have hi1c : cells.length ≤ i := hi1
    rw [hprep]
    simp only []
    split
    · rw [List.getElem?_append_right (by simpa using hi1c)]
      rw [List.length_map]
      exact getElem?_replicate_of_lt [] _ _ (by omega)
    · split
      · next h1 h2 => omega
      · next h1 h2 => omega

/-- A 2×2 table descriptor with three converter cells (one with content,
one non-dict, one with no children), used as the C6 witness input. -/
def ttblC6w : WTable Nat :=
  { row_size := some 2, column_size := some 2,
    children := some [WCell.cellDict (some [7]), WCell.nonDict,
      WCell.cellDict none] }

/-- C6 (witness): the amended preparation theorem at a concrete 2×2
table. -/
theorem C6_prepare_table_witness :
    ttblC6w.row_size = some 2 ∧ ttblC6w.column_size = some 2
    ∧ (0 : Int) ≤ 2 * 2 ∧ C6Prop Nat ttblC6w 2 2 :=
  ⟨rfl, rfl, by decide, C6_prepare_table Nat ttblC6w 2 2 rfl rfl (by decide)⟩

/-! ### C7 — isolation of the image-refill phase -/

/-- The cleanup delete always results in exactly one delete call in the
trace, whether or not the delete itself fails. -/
theorem deleteAttempt_eq (env : RefillEnv) (bid : String) :
    deleteAttempt env bid = [SdkCall.deleteBlock bid] := by
  unfold deleteAttempt
  cases env.deleteBlk bid <;> rfl

/-- Image-refill property (claim C7): the returned created-block list is
untouched; every zipped pair is processed (the trace list covers the whole
positional zip) and each pair's trace depends on that pair alone; a missing
local file leads to a delete with no upload attempt; a failed upload or
replace leads to a delete attempt after the upload call. -/
def C7Prop (γ : Type) (env : RefillEnv) (base_dir : String)
    (image_blocks : List (Option String)) (image_paths : List String)
    (created : List γ) : Prop :=
  ((imageRefillPhase env base_dir image_blocks image_paths created).1 = created)
  ∧ (image_paths ≠ [] →
      (imageRefillPhase env base_dir image_blocks image_paths created).2.length
        = min image_blocks.length image_paths.length)
  ∧ (∀ (i : Nat) (oid : Option String) (url : String), image_paths ≠ [] →
      (image_blocks.zip image_paths)[i]? = some (oid, url) →
      ((imageRefillPhase env base_dir image_blocks image_paths created).2)[i]?
        = some (refillItem env base_dir oid url))
  ∧ (∀ bid url, env.pathExists (env.resolve base_dir url) = false →
      refillItem env base_dir (some bid) url = [SdkCall.deleteBlock bid])
  ∧ (∀ bid url err, env.pathExists (env.resolve base_dir url) = true →
      env.upload (env.resolve base_dir url) bid = Except.error err →
      refillItem env base_dir (some bid) url
        = [SdkCall.upload (env.resolve base_dir url), SdkCall.deleteBlock bid])
  ∧ (∀ bid url tok err, env.pathExists (env.resolve base_dir url) = true →
      env.upload (env.resolve base_dir url) bid = Except.ok tok →
      env.replaceImg bid tok = Except.error err →
      refillItem env base_dir (some bid) url
        = [SdkCall.upload (env.resolve base_dir url), SdkCall.replaceImage bid,
            SdkCall.deleteBlock bid])

/-- C7: per-item failures in the image-refill phase are isolated — a
missing file or failed upload/replace leads to a best-effort delete of that
placeholder only, no exception escapes an item, every zipped pair is
processed, and the list of created top-level blocks returned by
`write_content` is unchanged. -/
theorem C7_image_refill (γ : Type) (env : RefillEnv) (base_dir : String)
    (image_blocks : List (Option String)) (image_paths : List String)
    (created : List γ) :
    C7Prop γ env base_dir image_blocks image_paths created := by
  refine ⟨?_, ?_, ?_, ?_, ?_, ?_⟩
  · unfold imageRefillPhase
    split <;> rfl
  · intro hne
    rcases image_paths with _ | ⟨p, ps⟩
    · exact absurd rfl hne
    · simp [imageRefillPhase, List.length_zip]
  · intro i oid url hne hget
    rcases image_paths with _ | ⟨p, ps⟩
    · exact absurd rfl hne
    · show ((image_blocks.zip (p :: ps)).map
          (fun pr => refillItem env base_dir pr.1 pr.2))[i]? = _
      rw [List.getElem?_map, hget]
      rfl
  · intro bid url h
    simp [refillItem, h, deleteAttempt_eq]
  · intro bid url err h1 h2
    simp [refillItem, h1, h2, deleteAttempt_eq]
  · intro bid url tok err h1 h2 h3
    simp [refillItem, h1, h2, h3, deleteAttempt_eq]

/-- A concrete refill environment in which the local file never exists. -/
def renvRefill : RefillEnv :=
  { resolve := fun b u => b ++ "/" ++ u, pathExists := fun _ => false,
    upload := fun _ _ => Except.error "boom",
    replaceImg := fun _ _ => Except.ok (),
    deleteBlk := fun _ => Except.ok () }

/-- C7 (witness): the refill theorem at a concrete environment and block
lists. -/
theorem C7_image_refill_witness :
    C7Prop Nat renvRefill "base" [some "b1"] ["img.png"] [0] :=
  C7_image_refill Nat renvRefill "base" [some "b1"] ["img.png"] [0]

/-! ### C3 — 2000-character chunking of leaf runs -/

/-- Concatenating the chunks gives back the chunked string. -/
theorem chunkChars_join (limit : Nat) (hl : 1 ≤ limit) (s : Str) :
    (chunkChars limit s).flatten = s := by
  have main : ∀ (n : Nat) (s : Str), s.length ≤ n → (chunkChars limit s).flatten = s := by
    intro n
    induction n with
    | zero =>
      intro s hs
      have : s = [] := List.eq_nil_of_length_eq_zero (Nat.le_zero.mp hs)
      subst this
      simp [chunkChars]
    | succ n ih =>
      intro s hs
      match s with
      | [] => simp [chunkChars]
      | c :: rest =>
        simp only [chunkChars, List.flatten_cons]
        rw [ih (rest.drop (limit - 1))
          (by simp only [List.length_drop]
              simp only [List.length_cons] at hs
              omega)]
        obtain ⟨k, rfl⟩ : ∃ k, limit = k + 1 := ⟨limit - 1, by omega⟩
        simp only [List.take_succ_cons, Nat.add_sub_cancel, List.cons_append,
          List.cons.injEq, true_and]
        exact List.take_append_drop k rest
  exact main s.length s le_rfl

/-- Every chunk is at most `limit` characters long. -/
theorem chunkChars_length_le (limit : Nat) (s : Str) :
    ∀ ch ∈ chunkChars limit s, ch.length ≤ limit := by
  have main : ∀ (n : Nat) (s : Str), s.length ≤ n →
      ∀ ch ∈ chunkChars limit s, ch.length ≤ limit := by
    intro n
    induction n with
    | zero =>
      intro s hs ch hch
      have : s = [] := List.eq_nil_of_length_eq_zero (Nat.le_zero.mp hs)
      subst this
      simp [chunkChars] at hch
    | succ n ih =>
      intro s hs ch hch
      match s with
      | [] => simp [chunkChars] at hch
      | c :: rest =>
        simp only [chunkChars, List.mem_cons] at hch
        rcases hch with h | h
        · subst h
          simp only [List.length_take]
          omega
        · exact ih (rest.drop (limit - 1))
            (by simp only [List.length_drop]
                simp only [List.length_cons] at hs
                omega) ch h
  exact main s.length s le_rfl

/-- Contents of the elements built from one leaf run: each element is a
`text_run` with the chunk's content and the current style, each chunk is at
most 2000 characters, and the chunk contents concatenate back to the
normalized content. -/
theorem extractLeaf_spec (raw : Str) (cur : MdStyle) :
    (∀ e ∈ extractLeaf raw cur, ∃ c, e = MdElement.textRun c cur ∧ c.length ≤ 2000)
    ∧ ((extractLeaf raw cur).map MdElement.runContent).flatten = normalizeChars raw := by
  unfold extractLeaf
  by_cases hlen : (normalizeChars raw).length > 2000
  · rw [if_pos hlen]
    constructor
    · intro e he
      simp only [List.mem_map] at he
      obtain ⟨ch, hch, rfl⟩ := he
      exact ⟨ch, rfl, chunkChars_length_le 2000 (normalizeChars raw) ch hch⟩
    · rw [List.map_map]
      have hcomp : (MdElement.runContent ∘ fun chunk => MdElement.textRun chunk cur)
          = id := rfl
      rw [hcomp, List.map_id]
      exact chunkChars_join 2000 (by omega) (normalizeChars raw)
  · rw [if_neg hlen]
    refine ⟨?_, by simp [MdElement.runContent]⟩
    intro e he
    simp only [List.mem_singleton] at he
    subst he
    exact ⟨normalizeChars raw, rfl, by omega⟩

/-- The single-token unfolding of `_extract_text_elements` on a text leaf. -/
theorem extract_text_single (env : ConvEnv) (style : MdStyle) (raw : Str) :
    extractTextElements env style [MToken.text raw] = extractLeaf raw style := by
  simp [extractTextElements]

/-- The single-token unfolding of `_extract_text_elements` on a code span. -/
theorem extract_codespan_single (env : ConvEnv) (style : MdStyle) (raw : Str) :
    extractTextElements env style [MToken.codespan raw]
      = extractLeaf raw { style with inline_code := true } := by
  simp [extractTextElements]

/-- Chunking property (claim C3, amended): every leaf text/code-span run is
emitted as consecutive `text_run` elements of at most 2000 characters each,
all carrying the identical style bag (with `inline_code` added for code
spans), whose contents concatenate to the run's newline-normalized content
(CR, LF and CRLF become spaces before chunking). -/
def C3Prop (env : ConvEnv) (style : MdStyle) (raw : Str) : Prop :=
  (∀ e ∈ extractTextElements env style [MToken.text raw],
      ∃ c, e = MdElement.textRun c style ∧ c.length ≤ 2000)
  ∧ ((extractTextElements env style [MToken.text raw]).map MdElement.runContent).flatten
      = normalizeChars raw
  ∧ (∀ e ∈ extractTextElements env style [MToken.codespan raw],
      ∃ c, e = MdElement.textRun c { style with inline_code := true }
        ∧ c.length ≤ 2000)
  ∧ ((extractTextElements env style [MToken.codespan raw]).map
        MdElement.runContent).flatten
      = normalizeChars raw

/-- C3 (amended): the converter splits every leaf run into chunks of at
most 2000 characters, all carrying the same style bag, and the chunk
contents concatenate to the newline-normalized run content (hence to the
run content itself whenever it contains no newline characters). -/
theorem C3_chunking (env : ConvEnv) (style : MdStyle) (raw : Str) :
    C3Prop env style raw := by
  refine ⟨?_, ?_, ?_, ?_⟩
  · rw [extract_text_single]
    exact (extractLeaf_spec raw style).1
  · rw [extract_text_single]
    exact (extractLeaf_spec raw style).2
  · rw [extract_codespan_single]
    exact (extractLeaf_spec raw { style with inline_code := true }).1
  · rw [extract_codespan_single]
    exact (extractLeaf_spec raw { style with inline_code := true }).2

/-- A 2002-character run starting with a newline. -/
def rawC3 : Str := '\n' :: List.replicate 2001 'a'

/-- Replacement is the identity when no character of the input equals the
pattern's first character. -/
theorem replaceCharsFuel_no_head_match (p : Char) (pt rep : Str) :
    ∀ (n : Nat) (s : Str), (∀ c ∈ s, c ≠ p) →
      replaceCharsFuel (p :: pt) rep n s = s := by
  intro n
  induction n with
  | zero => intro s _; rfl
  | succ n ih =>
    intro s h
    match s with
    | [] => rfl
    | c :: rest =>
      have hc : c ≠ p := h c (List.mem_cons_self c rest)
      have hbeq : (p == c) = false := beq_eq_false_iff_ne.mpr (Ne.symm hc)
      have hpre : (p :: pt).isPrefixOf (c :: rest) = false := by
        simp [List.isPrefixOf, hbeq]
      rw [replaceCharsFuel, if_neg (by simp [hpre])]
      rw [ih rest (fun c' hc' => h c' (List.mem_cons_of_mem _ hc'))]

/-- `replaceChars` version of the no-match lemma. -/
theorem replaceChars_no_head_match (p : Char) (pt rep : Str) (s : Str)
    (h : ∀ c ∈ s, c ≠ p) : replaceChars (p :: pt) rep s = s :=
  replaceCharsFuel_no_head_match p pt rep s.length s h

/-- The newline normalization of `rawC3` turns its leading newline into a
space. -/
theorem normalizeChars_rawC3 :
    normalizeChars rawC3 = ' ' :: List.replicate 2001 'a' := by
  have hRN : replaceChars ['\r', '\n'] [' '] rawC3 = rawC3 := by
    refine replaceChars_no_head_match '\r' ['\n'] [' '] rawC3 ?_
    intro c hc
    rcases List.mem_cons.mp hc with rfl | h
    · decide
    · rw [List.eq_of_mem_replicate h]; decide
  have hN : replaceChars ['\n'] [' '] rawC3 = ' ' :: List.replicate 2001 'a' := by
    unfold replaceChars rawC3
    rw [List.length_cons, replaceCharsFuel,
      if_pos ⟨by simp, by simp [List.isPrefixOf]⟩]
    norm_num
    rw [replaceCharsFuel_no_head_match '\n' [] [' '] _ _
      (fun c hc => by rw [List.eq_of_mem_replicate hc]; decide)]
  have hR : replaceChars ['\r'] [' '] (' ' :: List.replicate 2001 'a')
      = ' ' :: List.replicate 2001 'a' := by
    refine replaceChars_no_head_match '\r' [] [' '] _ ?_
    intro c hc
    rcases List.mem_cons.mp hc with rfl | h
    · decide
    · rw [List.eq_of_mem_replicate h]; decide
  unfold normalizeChars
  rw [hRN, hN, hR]

/-- C3 (counterexample): for a run longer than 2000 characters that
contains a newline, the concatenated chunk contents do not equal the run's
original content — the newline has been normalized to a space before
chunking — refuting the claim's unqualified concatenation equality. -/
theorem C3_counterexample :
    2000 < rawC3.length
    ∧ ((extractTextElements envId {} [MToken.text rawC3]).map
          MdElement.runContent).flatten ≠ rawC3 := by
  constructor
  · show 2000 < rawC3.length
    unfold rawC3
    rw [List.length_cons, List.length_replicate]
    omega
  · rw [extract_text_single]
    rw [(extractLeaf_spec rawC3 {}).2, normalizeChars_rawC3]
    unfold rawC3
    intro hcontra
    injection hcontra with h1 _
    exact absurd h1 (by decide)

/-! ### C4 — no empty-element blocks in converter output -/

/-- Blocks nested as children of a table descriptor's cells. -/
def nestedCellBlocks : MdBlock → List MdBlock
  | MdBlock.tableB _ _ cells => cells.flatten
  | _ => []

/-- Whether a block is of a filtered type with an empty element list. -/
def isEmptyFilteredBlock (b : MdBlock) : Bool :=
  match blockElementsForFilter b with
  | some els => els.isEmpty
  | none => false

/-- Every block in the output of the `convert` token loop survives the
empty-block filter. -/
theorem convertTokens_mem_keep (env : ConvEnv) :
    ∀ (ts : List MToken) (paths : List Str) (b : MdBlock),
      b ∈ (convertTokens env ts paths).1 → keepBlock b = true := by
  intro ts
  induction ts with
  | nil =>
    intro paths b hb
    simp [convertTokens] at hb
  | cons t rest ih =>
    intro paths b hb
    rcases h1 : convertToken env t paths with ⟨bs, paths2⟩
    rcases h2 : convertTokens env rest paths2 with ⟨bs2, paths3⟩
    simp only [convertTokens, h1, h2, List.mem_append] at hb
    rcases hb with hb | hb
    · exact List.of_mem_filter hb
    · have := ih paths2 b
      rw [h2] at this
      exact this hb

/-- C4 (amended): the top-level block list returned by `convert` never
contains a text, heading, bullet/ordered-list, or quote block with an
empty element list — the post-conversion filter drops them — while blocks
nested inside table-cell descriptors are not filtered (an empty cell
deliberately holds a single empty text block). -/
theorem C4_top_level_no_empty (env : ConvEnv) (tokens : List MToken) :
    ∀ b ∈ (convert env tokens).1,
      ∀ els, blockElementsForFilter b = some els → els ≠ [] := by
  intro b hb els hels
  have hk := convertTokens_mem_keep env tokens [] b hb
  unfold keepBlock at hk
  rw [hels] at hk
  intro hnil
  subst hnil
  simp at hk

/-- C4 (witness): the top-level filter theorem applied to the concrete
text block produced for a remote image reference. -/
theorem C4_top_level_no_empty_witness :
    (MdBlock.textB false
        [MdElement.textRun "![Image](https://host/pic.png)".data {}])
      ∈ (convert envId tokensRemoteImage).1
    ∧ blockElementsForFilter
        (MdBlock.textB false
          [MdElement.textRun "![Image](https://host/pic.png)".data {}])
      = some [MdElement.textRun "![Image](https://host/pic.png)".data {}]
    ∧ ([MdElement.textRun "![Image](https://host/pic.png)".data {}]
        : List MdElement) ≠ [] :=
  ⟨List.Mem.head _, rfl,
    C4_top_level_no_empty envId tokensRemoteImage
      (MdBlock.textB false
        [MdElement.textRun "![Image](https://host/pic.png)".data {}])
      (List.Mem.head _)
      [MdElement.textRun "![Image](https://host/pic.png)".data {}] rfl⟩

/-- The mistune token tree of a one-row table whose second cell is empty
(markdown such as `| a |  |` with a delimiter row). -/
def tokTableC4 : MToken :=
  MToken.table [MToken.tableHead
    [MToken.tableCell [MToken.text "a".data], MToken.tableCell []]]

/-- C4 (counterexample): a table with an empty cell converts to a table
descriptor one of whose cells holds a single text block with an empty
element list — an empty-element text block at nesting depth one, refuting
the claim's "at any nesting depth, including children of table-cell
descriptors". -/
theorem C4_counterexample :
    convert envId [tokTableC4]
      = ([MdBlock.tableB 1 2
          [[MdBlock.textB false [MdElement.textRun "a".data {}]],
           [MdBlock.textB false []]]], [])
    ∧ (((convert envId [tokTableC4]).1.flatMap nestedCellBlocks).any
        isEmptyFilteredBlock) = true := by
  have hex : extractTextElements envId {} [MToken.text "a".data]
      = [MdElement.textRun "a".data {}] := by
    rw [extract_text_single]
    rfl
  have h0 : convert envId [tokTableC4]
      = ([MdBlock.tableB 1 2
          [[MdBlock.textB false (extractTextElements envId {} [MToken.text "a".data])],
           [MdBlock.textB false []]]], []) := rfl
  constructor
  · rw [h0, hex]
  · rw [h0, hex]
    rfl

/-! ### C1 — table grid reconstruction -/

/-- Last element of an appended singleton. -/
theorem getElem_append_last {α : Type _} (l : List α) (a : α)
    (h : l.length < (l ++ [a]).length) : (l ++ [a])[l.length] = a := by
  induction l with
  | nil => rfl
  | cons x xs ih =>
    simp only [List.cons_append, List.length_cons, List.getElem_cons_succ]
    exact ih (by simp)

/-- A skipped (already visited) position leaves the grid state unchanged. -/
theorem step_of_visited (R C : Nat) (info : List MergeInfo) (cells : List String)
    (st : GridState) (p : Nat × Nat) (hv : p ∈ st.visited) :
    tableGridStep R C info cells st p = st := by
  unfold tableGridStep
  rw [if_pos hv]

/-- An unvisited position is appended as an origin. -/
theorem step_entryPos_of_not_visited (R C : Nat) (info : List MergeInfo)
    (cells : List String) (st : GridState) (p : Nat × Nat) (hv : p ∉ st.visited) :
    (tableGridStep R C info cells st p).entries.map Prod.fst
      = st.entries.map Prod.fst ++ [p] := by
  unfold tableGridStep
  rw [if_neg hv]
  cases cells[st.cursor]? <;> simp

/-- The visited set only grows. -/
theorem step_visited_mono (R C : Nat) (info : List MergeInfo) (cells : List String)
    (st : GridState) (p : Nat × Nat) :
    st.visited ⊆ (tableGridStep R C info cells st p).visited := by
  unfold tableGridStep
  by_cases hv : p ∈ st.visited
  · rw [if_pos hv]
    exact fun x h => h
  · rw [if_neg hv]
    cases cells[st.cursor]? <;> exact List.subset_append_left _ _

/-- The recorded origins only grow. -/
theorem step_entryPos_mono (R C : Nat) (info : List MergeInfo) (cells : List String)
    (st : GridState) (p : Nat × Nat) :
    st.entries.map Prod.fst ⊆ (tableGridStep R C info cells st p).entries.map Prod.fst := by
  by_cases hv : p ∈ st.visited
  · rw [step_of_visited R C info cells st p hv]
    exact fun x h => h
  · rw [step_entryPos_of_not_visited R C info cells st p hv]
    exact List.subset_append_left _ _

/-- Fold version of `step_visited_mono`. -/
theorem fold_visited_mono (R C : Nat) (info : List MergeInfo) (cells : List String) :
    ∀ (ps : List (Nat × Nat)) (st : GridState),
      st.visited ⊆ ((ps.foldl (tableGridStep R C info cells) st)).visited := by
  intro ps
  induction ps with
  | nil => intro st; exact fun x h => h
  | cons q rest ih =>
    intro st
    simp only [List.foldl_cons]
    exact fun x hx => ih _ (step_visited_mono R C info cells st q hx)

/-- Fold version of `step_entryPos_mono`. -/
theorem fold_entryPos_mono (R C : Nat) (info : List MergeInfo) (cells : List String) :
    ∀ (ps : List (Nat × Nat)) (st : GridState),
      st.entries.map Prod.fst
        ⊆ ((ps.foldl (tableGridStep R C info cells) st)).entries.map Prod.fst := by
  intro ps
  induction ps with
  | nil => intro st; exact fun x h => h
  | cons q rest ih =>
    intro st
    simp only [List.foldl_cons]
    exact fun x hx => ih _ (step_entryPos_mono R C info cells st q hx)

/-- Every processed position ends up recorded as an origin or inside the
visited set. -/
theorem fold_cover (R C : Nat) (info : List MergeInfo) (cells : List String) :
    ∀ (ps : List (Nat × Nat)) (st : GridState), ∀ p ∈ ps,
      p ∈ (ps.foldl (tableGridStep R C info cells) st).entries.map Prod.fst
      ∨ p ∈ (ps.foldl (tableGridStep R C info cells) st).visited := by
  intro ps
  induction ps with
  | nil => intro st p hp; simp at hp
  | cons q rest ih =>
    intro st p hp
    simp only [List.foldl_cons]
    rcases List.mem_cons.mp hp with rfl | hp'
    · by_cases hv : p ∈ st.visited
      · right
        exact fold_visited_mono R C info cells rest _
          (step_visited_mono R C info cells st p hv)
      · left
        refine fold_entryPos_mono R C info cells rest _ ?_
        rw [step_entryPos_of_not_visited R C info cells st p hv]
        simp
    · exact ih _ p hp'

/-- Along a duplicate-free position list, no origin is ever recorded
twice. -/
theorem fold_entryPos_nodup (R C : Nat) (info : List MergeInfo) (cells : List String) :
    ∀ (ps : List (Nat × Nat)) (st : GridState), ps.Nodup →
      (∀ p ∈ ps, p ∉ st.entries.map Prod.fst) →
      (st.entries.map Prod.fst).Nodup →
      ((ps.foldl (tableGridStep R C info cells) st).entries.map Prod.fst).Nodup := by
  intro ps
  induction ps with
  | nil => intro st _ _ h3; exact h3
  | cons q rest ih =>
    intro st hnd hnotin h3
    simp only [List.foldl_cons]
    obtain ⟨hq, hrest⟩ := List.nodup_cons.mp hnd
    by_cases hv : q ∈ st.visited
    · rw [step_of_visited R C info cells st q hv]
      exact ih st hrest (fun p hp => hnotin p (List.mem_cons_of_mem q hp)) h3
    · refine ih _ hrest ?_ ?_
      · intro p hp
        rw [step_entryPos_of_not_visited R C info cells st q hv]
        simp only [List.mem_append, List.mem_singleton]
        rintro (hin | rfl)
        · exact hnotin p (List.mem_cons_of_mem q hp) hin
        · exact hq hp
      · rw [step_entryPos_of_not_visited R C info cells st q hv]
        refine List.Nodup.append h3 (List.nodup_singleton q) ?_
        intro x hx hx'
        exact hnotin q (List.mem_cons_self q rest)
          (by rwa [List.mem_singleton.mp hx'] at hx)

/-- Loop invariant of the grid construction: the cursor counts the consumed
cell blocks, the k-th recorded entry holds the k-th cell text, every
recorded span comes from the merge info, and the visited set is exactly the
union of the recorded rectangles. -/
def GridInv (R C : Nat) (info : List MergeInfo) (cells : List String)
    (st : GridState) : Prop :=
  st.cursor = min st.entries.length cells.length
  ∧ (∀ k (hk : k < st.entries.length), (st.entries[k]).2.1 = cells.getD k "")
  ∧ (∀ e ∈ st.entries, e.2.2 = spanAt info C e.1)
  ∧ st.visited
      = st.entries.flatMap (fun e => markRect e.1.1 e.1.2 e.2.2.1 e.2.2.2 R C)

/-- One loop iteration preserves the grid invariant. -/
theorem gridInv_step (R C : Nat) (info : List MergeInfo) (cells : List String)
    (st : GridState) (p : Nat × Nat) (h : GridInv R C info cells st) :
    GridInv R C info cells (tableGridStep R C info cells st p) := by
  obtain ⟨hcur, hcont, hspan, hvis⟩ := h
  by_cases hv : p ∈ st.visited
  · rw [step_of_visited R C info cells st p hv]
    exact ⟨hcur, hcont, hspan, hvis⟩
  · unfold tableGridStep
    rw [if_neg hv]
    cases hg : cells[st.cursor]? with
    | some t =>
      obtain ⟨hlt, hget⟩ := List.getElem?_eq_some_iff.mp hg
      have hlen : st.entries.length < cells.length := by omega
      have hcureq : st.cursor = st.entries.length := by omega
      refine ⟨?_, ?_, ?_, ?_⟩
      · simp only [List.length_append, List.length_singleton]
        omega
      · intro k hk
        simp only [List.length_append, List.length_singleton] at hk
        rcases Nat.lt_or_ge k st.entries.length with hk' | hk'
        · rw [List.getElem_append_left hk']
          exact hcont k hk'
        · have hkeq : k = st.entries.length := by omega
          subst hkeq
          rw [getElem_append_last]
          show t = cells.getD st.entries.length ""
          rw [hcureq] at hg
          have hgd : cells.getD st.entries.length "" = t := by
            rw [List.getD_eq_getElem?_getD, hg]
            rfl
          exact hgd.symm
      · intro e he
        rcases List.mem_append.mp he with he' | he'
        · exact hspan e he'
        · rw [List.mem_singleton.mp he']
      · rw [List.flatMap_append, ← hvis]
        simp
    | none =>
      have hge : cells.length ≤ st.cursor := List.getElem?_eq_none_iff.mp hg
      have hlen : cells.length ≤ st.entries.length := by omega
      refine ⟨?_, ?_, ?_, ?_⟩
      · simp only [List.length_append, List.length_singleton]
        omega
      · intro k hk
        simp only [List.length_append, List.length_singleton] at hk
        rcases Nat.lt_or_ge k st.entries.length with hk' | hk'
        · rw [List.getElem_append_left hk']
          exact hcont k hk'
        · have hkeq : k = st.entries.length := by omega
          subst hkeq
          rw [getElem_append_last]
          show "" = cells.getD st.entries.length ""
          have hgd : cells.getD st.entries.length "" = "" :=
            List.getD_eq_default _ _ (by omega)
          exact hgd.symm
      · intro e he
        rcases List.mem_append.mp he with he' | he'
        · exact hspan e he'
        · rw [List.mem_singleton.mp he']
      · rw [List.flatMap_append, ← hvis]
        simp

/-- The grid invariant holds after the whole fold. -/
theorem gridInv_fold (R C : Nat) (info : List MergeInfo) (cells : List String) :
    ∀ (ps : List (Nat × Nat)) (st : GridState), GridInv R C info cells st →
      GridInv R C info cells (ps.foldl (tableGridStep R C info cells) st) := by
  intro ps
  induction ps with
  | nil => intro st h; exact h
  | cons q rest ih =>
    intro st h
    simp only [List.foldl_cons]
    exact ih _ (gridInv_step R C info cells st q h)

/-- Visited set and origin positions do not depend on the supplied cell
texts. -/
def StateRel (st st' : GridState) : Prop :=
  st.visited = st'.visited ∧ st.entries.map Prod.fst = st'.entries.map Prod.fst

/-- One step preserves `StateRel` across different cell-text lists. -/
theorem stateRel_step (R C : Nat) (info : List MergeInfo)
    (cells cells' : List String) (st st' : GridState) (p : Nat × Nat)
    (h : StateRel st st') :
    StateRel (tableGridStep R C info cells st p)
      (tableGridStep R C info cells' st' p) := by
  obtain ⟨hv, he⟩ := h
  unfold tableGridStep
  by_cases hp : p ∈ st.visited
  · rw [if_pos hp, if_pos (hv ▸ hp)]
    exact ⟨hv, he⟩
  · rw [if_neg hp, if_neg (hv ▸ hp)]
    cases cells[st.cursor]? <;> cases cells'[st'.cursor]? <;>
      exact ⟨by simp [hv], by simp [he]⟩

/-- Fold version of `stateRel_step`. -/
theorem stateRel_fold (R C : Nat) (info : List MergeInfo)
    (cells cells' : List String) :
    ∀ (ps : List (Nat × Nat)) (st st' : GridState), StateRel st st' →
      StateRel (ps.foldl (tableGridStep R C info cells) st)
        (ps.foldl (tableGridStep R C info cells') st') := by
  intro ps
  induction ps with
  | nil => intro st st' h; exact h
  | cons q rest ih =>
    intro st st' h
    simp only [List.foldl_cons]
    exact ih _ _ (stateRel_step R C info cells cells' st st' q h)

/-- The row-major position list is the product of the two ranges. -/
theorem positionsRM_eq_product (R C : Nat) :
    positionsRM R C = (List.range R) ×ˢ (List.range C) := rfl

/-- The loop examines each of the `R * C` grid positions exactly once. -/
theorem positionsRM_nodup (R C : Nat) : (positionsRM R C).Nodup := by
  rw [positionsRM_eq_product]
  exact (List.nodup_range R).product (List.nodup_range C)

/-- The loop runs over `R * C` positions. -/
theorem positionsRM_length (R C : Nat) : (positionsRM R C).length = R * C := by
  rw [positionsRM_eq_product, List.length_product, List.length_range,
    List.length_range]

/-- Table-grid property (claim C1): the grid reconstruction records exactly
one entry per origin (as many as there are supplied cell blocks), consumes
the cell blocks sequentially, defaults to a 1×1 span outside the merge-info
range, never records a position twice, and classifies every one of the
`R * C` grid positions as an origin or as a cell spanned over by a recorded
rectangle. -/
def C1Prop (R C : Nat) (info : List MergeInfo) (cells : List String) : Prop :=
  ((buildTableGrid R C info cells).entries.length = cells.length)
  ∧ ((buildTableGrid R C info cells).cursor = cells.length)
  ∧ (∀ k (hk : k < (buildTableGrid R C info cells).entries.length),
      ((buildTableGrid R C info cells).entries[k]).2.1 = cells.getD k "")
  ∧ (∀ e ∈ (buildTableGrid R C info cells).entries,
      e.2.2 = spanAt info C e.1
      ∧ (info.length ≤ e.1.1 * C + e.1.2 → e.2.2 = (1, 1)))
  ∧ ((buildTableGrid R C info cells).entries.map Prod.fst).Nodup
  ∧ (∀ p ∈ positionsRM R C,
      p ∈ (buildTableGrid R C info cells).entries.map Prod.fst
      ∨ p ∈ (buildTableGrid R C info cells).visited)
  ∧ ((buildTableGrid R C info cells).visited
      = (buildTableGrid R C info cells).entries.flatMap
          (fun e => markRect e.1.1 e.1.2 e.2.2.1 e.2.2.2 R C))
  ∧ (positionsRM R C).Nodup
  ∧ (positionsRM R C).length = R * C

/-- C1: for a table whose merge info partitions the R×C grid and whose cell
blocks number exactly the merged-region origins, the read-direction grid
reconstruction visits every grid position exactly once, reads a default 1×1
span outside the merge-info range, records exactly one entry per origin,
and consumes the supplied cell blocks sequentially, so the number of
recorded content cells equals the number of supplied cell blocks. -/
theorem C1_table_grid (R C : Nat) (info : List MergeInfo) (cells : List String)
    (h : cells.length = numOrigins R C info) : C1Prop R C info cells := by
  have hInv : GridInv R C info cells (buildTableGrid R C info cells) := by
    refine gridInv_fold R C info cells (positionsRM R C) _ ?_
    refine ⟨by simp, ?_, by simp, rfl⟩
    intro k hk
    exact absurd hk (by simp)
  obtain ⟨hcur, hcont, hspan, hvis⟩ := hInv
  have hrel : StateRel (buildTableGrid R C info cells)
      (buildTableGrid R C info []) :=
    stateRel_fold R C info cells [] (positionsRM R C) _ _ ⟨rfl, rfl⟩
  have hlen : (buildTableGrid R C info cells).entries.length
      = numOrigins R C info := by
    have h2 := congrArg List.length hrel.2
    simpa [numOrigins] using h2
  refine ⟨by omega, by omega, hcont, ?_, ?_, ?_, hvis, positionsRM_nodup R C,
    positionsRM_length R C⟩
  · intro e he
    refine ⟨hspan e he, ?_⟩
    intro hout
    rw [hspan e he]
    unfold spanAt
    rw [List.getElem?_eq_none hout]
  · refine fold_entryPos_nodup R C info cells (positionsRM R C) _
      (positionsRM_nodup R C) ?_ ?_
    · intro p _
      simp
    · simp
  · exact fun p hp => fold_cover R C info cells (positionsRM R C) _ p hp

/-- Merge info of the 2×2 example: the top row is one merged 1×2 region. -/
def mergeInfoEx : List MergeInfo := [⟨1, 2⟩, ⟨1, 1⟩, ⟨1, 1⟩, ⟨1, 1⟩]

/-- C1 (witness): the grid theorem at the 2×2 example with merge info
`[(1,2),(1,1),(1,1),(1,1)]` and three cell blocks — exactly 3 content
cells result. -/
theorem C1_table_grid_witness :
    (["a", "b", "c"] : List String).length = numOrigins 2 2 mergeInfoEx
    ∧ C1Prop 2 2 mergeInfoEx ["a", "b", "c"] :=
  ⟨by decide, C1_table_grid 2 2 mergeInfoEx ["a", "b", "c"] (by decide)⟩

end FeishuDocx
